import Mathlib

/-!
Verification of the artifact-proxy-operator request router
(`cmd/artifact-proxy-operator/main.go`) against its specification.

The Go handler is shallowly embedded: the pure helpers (`parseToken`,
`validateURLPath`, `isArtifactRequest`, `isPlistRequest`, `encodeItmsUrl`,
`handleBinaryResponse`) become Lean functions; the external collaborators
(OpenShift client, Jenkins client, plist renderers) become an explicit
environment of oracles, and the handler becomes a function from that
environment and the request to the HTTP response it writes.
-/

namespace ArtifactProxy

/-- An HTTP response as observed by the client: status code, headers, body. -/
structure Response where
  status : Nat
  headers : List (String × String)
  body : String
deriving DecidableEq

/-- The projection of an OpenShift build object used by the handler:
its name (`build.Name`) and its string-keyed annotations
(`build.Annotations`, a Go map, modelled as an association list). -/
structure Build where
  name : String
  annotations : List (String × String)
deriving DecidableEq

/-- The part of `*url.URL` the handler reads: the path (`r.URL.Path`) and the
query parameters in order of appearance (`r.URL.Query()` is derived below). -/
structure ReqURL where
  path : String
  query : List (String × String)
deriving DecidableEq

/-- All values of key `k` in the query, in order: the `url.Values` slice
`Query()[k]`. -/
def queryValues (q : List (String × String)) (k : String) : List String :=
  (q.filter fun p => p.1 == k).map Prod.snd

/-- Go's `url.Values.Get`: first value for the key, or "" when absent. -/
def queryGet (q : List (String × String)) (k : String) : String :=
  match queryValues q k with
  | [] => ""
  | v :: _ => v

/-- First value of key `k`, when present (`Query()[k][0]`). -/
def firstValue (q : List (String × String)) (k : String) : Option String :=
  (q.find? fun p => p.1 == k).map Prod.snd

/-- `isArtifactRequest`: the first `artifact` query value is literally "true". -/
def isArtifactRequest (u : ReqURL) : Bool :=
  queryGet u.query "artifact" == "true"

/-- `isPlistRequest`: the first `plist` query value is literally "true". -/
def isPlistRequest (u : ReqURL) : Bool :=
  queryGet u.query "plist" == "true"

/-- `parseToken`: requires `Query()["token"]` to be present with exactly one
value; returns that value (which may be the empty string), else the fixed
error used as the 400 body. -/
def parseToken (u : ReqURL) : Except String String :=
  match queryValues u.query "token" with
  | [t] => .ok t
  | _ => .error "invalid request, missing token"

/-- Literal-prefix test on character lists. -/
def matchLit : List Char → List Char → Bool
  | [], _ => true
  | _ :: _, [] => false
  | c :: cs, d :: ds => c == d && matchLit cs ds

/-- One-pass matcher for Go's unanchored regexp `/.*/download` (note: `.`
matches any character except newline, the leading segment may be empty, and
nothing anchors the pattern to the start or end of the path). `seen` records
whether some earlier '/' occurs with no later newline before the current
position; accept when the literal "/download" starts here and such a '/' was
seen. -/
def downloadPathAux : List Char → Bool → Bool
  | [], _ => false
  | c :: rest, seen =>
    if seen && matchLit "/download".data (c :: rest) then true
    else downloadPathAux rest (if c == '\n' then false else seen || c == '/')

/-- `validateURLPath`: `regexp.MatchString("/.*/download", url.Path)`; the
fixed pattern always compiles, so the error result is always nil and the
handler's "error parsing request" branch never fires. -/
def validateURLPath (u : ReqURL) : Bool :=
  downloadPathAux u.path.data false

/-- Go's `strings.Split(s, "/")` for a one-character separator:
n separators yield n+1 (possibly empty) fields. -/
def splitOnChar (sep : Char) : List Char → List (List Char)
  | [] => [[]]
  | c :: rest =>
    match splitOnChar sep rest with
    | [] => [[]]
    | t :: ts => if c == sep then [] :: t :: ts else (c :: t) :: ts

/-- Occurrence of `sub` as a contiguous subsequence of `s`, checked at every
position. -/
def containsSeq : List Char → List Char → Bool
  | [], sub => matchLit sub []
  | c :: rest, sub => matchLit sub (c :: rest) || containsSeq rest sub

/-- Go's `strings.Contains`. -/
def strContains (s sub : String) : Bool :=
  containsSeq s.data sub.data

/-- Go map indexing `m[k]` on the annotation list: the value and (via
`Option`) the `ok` flag. -/
def annotLookup : List (String × String) → String → Option String
  | [], _ => none
  | (k2, v) :: rest, k => if k2 == k then some v else annotLookup rest k

/-- Go's `http.Error(rw, msg, code)`: plain-text error response whose body is
the message plus a trailing newline. -/
def httpError (msg : String) (code : Nat) : Response :=
  { status := code
    headers := [("content-type", "text/plain; charset=utf-8")]
    body := msg ++ "\n" }

/-- Uppercase hexadecimal digit. -/
def hexDigitChar (n : Nat) : Char :=
  if n < 10 then Char.ofNat ('0'.toNat + n) else Char.ofNat ('A'.toNat + (n - 10))

/-- UTF-8 bytes of a character: Go strings are byte sequences and net/url
escapes byte by byte. -/
def utf8Bytes (c : Char) : List Nat :=
  let n := c.toNat
  if n < 0x80 then [n]
  else if n < 0x800 then [0xC0 + n / 64, 0x80 + n % 64]
  else if n < 0x10000 then [0xE0 + n / 4096, 0x80 + n / 64 % 64, 0x80 + n % 64]
  else [0xF0 + n / 262144, 0x80 + n / 4096 % 64, 0x80 + n / 64 % 64, 0x80 + n % 64]

/-- Percent-encoding of one byte, uppercase hex (Go's `"%%%02X"`). -/
def pctByte (b : Nat) : List Char :=
  ['%', hexDigitChar (b / 16), hexDigitChar (b % 16)]

/-- RFC 3986 unreserved characters, never escaped by net/url. -/
def isUnreservedChar (c : Char) : Bool :=
  c.isAlphanum || c == '-' || c == '_' || c == '.' || c == '~'

/-- Go `url.QueryEscape` of one character (mode encodeQueryComponent):
unreserved kept, space becomes '+', anything else percent-encoded per byte. -/
def queryEscapeChar (c : Char) : List Char :=
  if isUnreservedChar c then [c]
  else if c == ' ' then ['+']
  else (utf8Bytes c).flatMap pctByte

/-- Go `url.QueryEscape`. -/
def queryEscape (s : String) : String :=
  String.mk (s.data.flatMap queryEscapeChar)

/-- Characters Go leaves unescaped in a URL path (mode encodePath):
unreserved plus the reserved set the path section allows. -/
def isPathSafeChar (c : Char) : Bool :=
  isUnreservedChar c || c == '$' || c == '&' || c == '+' || c == ',' ||
    c == '/' || c == ':' || c == ';' || c == '=' || c == '@'

/-- Go's escaping of `URL.Path` as performed by `URL.String` (mode
encodePath; no '+' for spaces here). -/
def pathEscape (s : String) : String :=
  String.mk (s.data.flatMap fun c =>
    if isPathSafeChar c then [c] else (utf8Bytes c).flatMap pctByte)

/-- Model of Go `url.Values` (`map[string][]string`) as an association list
with pairwise-distinct keys; entry order is irrelevant to `Encode`, which
sorts the keys. -/
abbrev GoValues := List (String × List String)

/-- Lookup in a `GoValues`. -/
def lookupVs : GoValues → String → Option (List String)
  | [], _ => none
  | (k2, l) :: rest, k => if k2 = k then some l else lookupVs rest k

/-- Go `url.Values.Add`: append the value to the key's slice, creating the
entry when absent. -/
def valuesAdd : GoValues → String → String → GoValues
  | [], k, v => [(k, [v])]
  | (k2, l) :: rest, k, v =>
    if k2 = k then (k2, l ++ [v]) :: rest else (k2, l) :: valuesAdd rest k v

/-- Go `url.URL.Query()`: group the query pairs by key, preserving the order
of values within each key. -/
def queryToValues (q : List (String × String)) : GoValues :=
  q.foldl (fun acc p => valuesAdd acc p.1 p.2) []

/-- For each key keep only the first value: the effect, on the resulting map,
of `for k, v := range toEncode.Query() { params.Add(k, v[0]) }` starting from
an empty `params` (Go's randomized map-iteration order only permutes the
assoc-list entry order, which `Encode` erases by sorting the keys). -/
def firstOnly (vs : GoValues) : GoValues :=
  vs.map fun p => (p.1, p.2.take 1)

/-- Lexicographic comparison of character lists by codepoint: for valid
UTF-8, the same order as Go's byte-wise string comparison used by
`sort.Strings`. -/
def charListLe : List Char → List Char → Bool
  | [], _ => true
  | _ :: _, [] => false
  | c :: cs, d :: ds => if c = d then charListLe cs ds else decide (c < d)

/-- Go string order (`s1 <= s2` byte-wise). -/
def strLeB (a b : String) : Bool :=
  charListLe a.data b.data

/-- The key order used by `url.Values.Encode`'s `sort.Strings`. -/
def keyLE (a b : String) : Prop :=
  strLeB a b = true

instance : DecidableRel keyLE :=
  fun a b => inferInstanceAs (Decidable (strLeB a b = true))

/-- Go `url.Values.Encode`: sort the keys, emit `k=v` pairs (query-escaped)
joined by '&', the values of a key in slice order. -/
def valuesEncode (vs : GoValues) : String :=
  let keys := List.insertionSort keyLE (vs.map Prod.fst)
  String.intercalate "&" (keys.flatMap fun k =>
    ((lookupVs vs k).getD []).map fun v => queryEscape k ++ "=" ++ queryEscape v)

/-- The fields of Go `url.URL` that `encodeItmsUrl` uses. -/
structure GoURL where
  scheme : String
  host : String
  path : String
  rawQuery : String

/-- Model of `url.Parse("https://" ++ hostname)` for a configured hostname
containing none of '/', '?', '#': scheme https, host as given, empty path and
query (the parse error is discarded by the source). -/
def parseHttpsHost (hostname : String) : GoURL :=
  { scheme := "https", host := hostname, path := "", rawQuery := "" }

/-- Go `url.URL.String()` for the URLs built here (no opaque part, user info
or fragment): scheme://host, the escaped path, and `?` plus the raw query when
the raw query is non-empty. -/
def goUrlString (u : GoURL) : String :=
  u.scheme ++ "://" ++ u.host ++ pathEscape u.path ++
    (if u.rawQuery == "" then "" else "?" ++ u.rawQuery)

/-- The `url.Values` built by `encodeItmsUrl`: the first value of every
inbound key, then `params.Add("plist", "true")`. -/
def itmsParams (q : List (String × String)) : GoValues :=
  valuesAdd (firstOnly (queryToValues q)) "plist" "true"

/-- `encodeItmsUrl`: rewrite the inbound URL to https at the configured
hostname (`OPERATOR_HOSTNAME`), keep the path, and re-encode the query from
the first inbound values plus `plist=true`. -/
def encodeItmsUrl (toEncode : ReqURL) (hostname : String) : String :=
  let directTo := { parseHttpsHost hostname with path := toEncode.path }
  goUrlString { directTo with rawQuery := valuesEncode (itmsParams toEncode.query) }

/-- Outcome of `io.Copy(rw, artifactStreamer)`: the bytes fully copied, or a
failure after some already-flushed prefix. -/
inductive CopyOutcome
  | success (bytes : String)
  | failure (flushed : String)
deriving DecidableEq

/-- What `handleBinaryResponse` did: the HTTP response, whether a stream
handle was obtained, whether it was closed (the deferred `Close` runs on
every return after a successful fetch), and how many further error responses
were sent after the response was flushed (a copy failure is only logged). -/
structure BinOutcome where
  response : Response
  streamObtained : Bool
  streamClosed : Bool
  errorsAfterFlush : Nat
deriving DecidableEq

/-- `handleBinaryResponse`: fetch the artifact via
`jenkinsClient.StreamArtifact(artifactUrl, osClient.AuthToken)`; on failure
reply 500 with a fixed message (the source spells it "atifact"); on success
set the binary headers and copy the stream, a copy failure being only logged,
with the deferred close releasing the handle on both post-fetch paths. -/
def handleBinaryResponse (streamArtifact : String → String → Except String Unit)
    (authToken : String) (copy : CopyOutcome)
    (artifactUrl extension : String) : BinOutcome :=
  match streamArtifact artifactUrl authToken with
  | .error _ =>
    { response := httpError "error when streaming atifact" 500
      streamObtained := false, streamClosed := false, errorsAfterFlush := 0 }
  | .ok _ =>
    let hdrs := [("content-type", "octet/stream"),
      ("content-disposition", "attachment; filename=\"" ++ extension ++ "\"")]
    match copy with
    | .success bytes =>
      { response := { status := 200, headers := hdrs, body := bytes }
        streamObtained := true, streamClosed := true, errorsAfterFlush := 0 }
    | .failure flushed =>
      { response := { status := 200, headers := hdrs, body := flushed }
        streamObtained := true, streamClosed := true, errorsAfterFlush := 0 }

/-- The handler's collaborators and configuration: the OpenShift client
(`GetBuild`, `GetBuildType`, the two annotation-key constants, `AuthToken`,
`GenerateArtifactUrl`), the plist renderers, the Jenkins artifact fetch, the
`OPERATOR_HOSTNAME` configuration, `fmt`'s `%s` rendering of the build value
(an external struct), and this request's stream-copy outcome. -/
structure Env where
  getBuild : String → Build × Option String
  getBuildType : Build → Except String String
  tokenConst : String
  downloadConst : String
  authToken : String
  generateArtifactUrl : String → String → Bool → String
  produceXML : String → String → String
  produceHTML : String → String
  streamArtifact : String → String → Except String Unit
  hostname : String
  formatBuild : Build → String
  copy : CopyOutcome

/-- The `switch buildType` dispatch at the end of `handler`: android streams
`<name>.apk`; ios streams `<name>.ipa` when `artifact=true`, renders the
plist manifest when `plist=true`, else renders the HTML landing page; any
other type is a 400 naming the build. -/
def dispatch (env : Env) (r : ReqURL) (token : String) (build : Build)
    (artifactUrl buildType : String) : Response :=
  if buildType = "android" then
    (handleBinaryResponse env.streamArtifact env.authToken env.copy artifactUrl
      (build.name ++ ".apk")).response
  else if buildType = "ios" then
    if isArtifactRequest r then
      (handleBinaryResponse env.streamArtifact env.authToken env.copy artifactUrl
        (build.name ++ ".ipa")).response
    else if isPlistRequest r then
      { status := 200, headers := [("content-type", "application/xml")]
        body := env.produceXML (env.generateArtifactUrl build.name token true) build.name }
    else
      { status := 200, headers := [("content-type", "text/html")]
        body := env.produceHTML (encodeItmsUrl r env.hostname) }
  else httpError ("invalid build type found for build " ++ env.formatBuild build) 400

/-- After authorization: require a present, non-empty download annotation
(else 500 "missing annotation on build object"), classify the build type
(else 400 naming the build), then dispatch. -/
def afterAuth (env : Env) (r : ReqURL) (token : String) (build : Build) : Response :=
  let p := annotLookup build.annotations env.downloadConst
  let artifactUrl := p.getD ""
  if p.isSome = false ∨ artifactUrl = "" then
    httpError "missing annotation on build object" 500
  else
    match env.getBuildType build with
    | .error _ => httpError ("no build type found for build " ++ env.formatBuild build) 400
    | .ok buildType => dispatch env r token build artifactUrl buildType

/-- Token authorization: Go's `tokenAnnotationVal != token || !ok` test on the
token annotation, replying 403 naming the build on failure. -/
def afterResolve (env : Env) (r : ReqURL) (token : String) (build : Build) : Response :=
  let p := annotLookup build.annotations env.tokenConst
  let tokenAnnotationVal := p.getD ""
  if tokenAnnotationVal ≠ token ∨ p.isSome = false then
    httpError ("invalid token provided for build " ++ build.name) 403
  else afterAuth env r token build

/-- Build resolution: `osClient.GetBuild(splitPath[1])`; a 404 naming the
requested id when the error mentions "not found", a 500 naming the returned
record's name otherwise. -/
def resolveAndDispatch (env : Env) (r : ReqURL) (token : String) (buildId : String) : Response :=
  match env.getBuild buildId with
  | (b, some e) =>
    if strContains e "not found" then
      httpError ("no resources found for build " ++ buildId) 404
    else httpError ("error fetching build " ++ b.name) 500
  | (build, none) => afterResolve env r token build

/-- Split the path on '/' and take `splitPath[1]` after the `len < 2` guard
(whose failure is the 500 "unable to parse build name from path"). -/
def afterToken (env : Env) (r : ReqURL) (token : String) : Response :=
  match splitOnChar '/' r.path.data with
  | _ :: second :: _ => resolveAndDispatch env r token (String.mk second)
  | _ => httpError "unable to parse build name from path" 500

/-- The HTTP handler `handler(rw, r)` as the response it writes: path shape
check (400), token extraction (400), then resolution, authorization and
dispatch. -/
def handler (env : Env) (r : ReqURL) : Response :=
  if validateURLPath r = false then
    httpError "bad request. route should be called with /<build-id>/download?token=eg-token" 400
  else
    match parseToken r with
    | .error e => httpError e 400
    | .ok token => afterToken env r token

/-- A concrete build record used to instantiate the theorems below. -/
def sampleBuild : Build :=
  ⟨"b1", [("jenkins-token", "secret"), ("jenkins-dl", "http://store/a.bin")]⟩

/-- A build whose token annotation is present but empty. -/
def emptyTokenBuild : Build :=
  ⟨"b1", [("jenkins-token", ""), ("jenkins-dl", "http://store/a.bin")]⟩

/-- A concrete environment: one android build `b1`, every other id failing
resolution with a "not found" error, all collaborators succeeding. -/
def sampleEnv : Env where
  getBuild := fun id =>
    if id = "b1" then (sampleBuild, none)
    else (⟨"", []⟩, some ("builds \"" ++ id ++ "\" not found"))
  getBuildType := fun _ => .ok "android"
  tokenConst := "jenkins-token"
  downloadConst := "jenkins-dl"
  authToken := "svc-token"
  generateArtifactUrl := fun n t _ => "https://gen/" ++ n ++ "?token=" ++ t
  produceXML := fun u n => "<plist>" ++ u ++ ":" ++ n ++ "</plist>"
  produceHTML := fun u => "<html>" ++ u ++ "</html>"
  streamArtifact := fun _ _ => .ok ()
  hostname := "gateway.example.com"
  formatBuild := fun b => "build " ++ b.name
  copy := .success "BYTES"

/-- `sampleEnv` with ios build classification. -/
def iosEnv : Env :=
  { sampleEnv with getBuildType := fun _ => .ok "ios" }

/-- `sampleEnv` resolving every id to the build with the empty token
annotation. -/
def emptyTokenEnv : Env :=
  { sampleEnv with getBuild := fun _ => (emptyTokenBuild, none) }

/-- Reduction of the handler to the post-resolution stage under the stated
outcomes of path validation, token parsing, path splitting and resolution. -/
theorem handler_resolved (env : Env) (r : ReqURL) (token : String)
    (s0 s1 : List Char) (rest : List (List Char)) (build : Build)
    (hv : validateURLPath r = true)
    (hp : parseToken r = .ok token)
    (hs : splitOnChar '/' r.path.data = s0 :: s1 :: rest)
    (hb : env.getBuild (String.mk s1) = (build, none)) :
    handler env r = afterResolve env r token build := by
  simp [handler, hv, hp, afterToken, hs, resolveAndDispatch, hb]

/-- The authorization test in if-form: the request passes exactly when the
token annotation is present and equal to the supplied token. -/
theorem afterResolve_eq (env : Env) (r : ReqURL) (token : String) (build : Build) :
    afterResolve env r token build =
      if annotLookup build.annotations env.tokenConst = some token
      then afterAuth env r token build
      else httpError ("invalid token provided for build " ++ build.name) 403 := by
  unfold afterResolve
  rcases h : annotLookup build.annotations env.tokenConst with _ | v
  · simp [h]
  · by_cases hv : v = token
    · subst hv; simp [h]
    · simp [h, hv]

/-- The post-authorization stage in match-form. -/
theorem afterAuth_eq (env : Env) (r : ReqURL) (token : String) (build : Build) :
    afterAuth env r token build =
      match annotLookup build.annotations env.downloadConst with
      | none => httpError "missing annotation on build object" 500
      | some a =>
        if a = "" then httpError "missing annotation on build object" 500
        else
          match env.getBuildType build with
          | .error _ =>
            httpError ("no build type found for build " ++ env.formatBuild build) 400
          | .ok buildType => dispatch env r token build a buildType := by
  unfold afterAuth
  rcases h : annotLookup build.annotations env.downloadConst with _ | a
  · simp [h]
  · by_cases ha : a = "" <;> simp [h, ha]

/-- No branch after a successful authorization replies 403. -/
theorem afterAuth_status (env : Env) (r : ReqURL) (token : String) (build : Build) :
    (afterAuth env r token build).status ≠ 403 := by
  rw [afterAuth_eq]
  unfold dispatch handleBinaryResponse
  repeat' split
  all_goals simp [httpError]

/-- A path accepted by the `/.*/download` matcher carries at least two '/'
characters (one more when a qualifying slash was already seen). -/
theorem downloadPathAux_slashes :
    ∀ (l : List Char) (seen : Bool), downloadPathAux l seen = true →
      2 ≤ l.count '/' + seen.toNat := by
  intro l
  induction l with
  | nil => intro seen h; rw [downloadPathAux] at h; exact absurd h (by simp)
  | cons c rest ih =>
    intro seen h
    rw [downloadPathAux] at h
    rw [List.count_cons]
    by_cases hc : (seen && matchLit "/download".data (c :: rest)) = true
    · rw [Bool.and_eq_true] at hc
      obtain ⟨hseen, hm⟩ := hc
      have hslash : (c == '/') = true := by
        rw [show "/download".data = '/' :: "download".data from rfl, matchLit,
          Bool.and_eq_true] at hm
        exact beq_iff_eq.mpr (beq_iff_eq.mp hm.1).symm
      rw [hslash, hseen]
      simp
    · rw [if_neg hc] at h
      have h2 := ih _ h
      cases hn : (c == '\n') with
      | true =>
        rw [hn] at h2
        simp only [if_true, Bool.toNat_false, Nat.add_zero] at h2
        have hne : (c == '/') = false := by
          have hcn : c = '\n' := beq_iff_eq.mp hn
          simp [hcn]
        rw [hne]
        simp
        omega
      | false =>
        rw [hn] at h2
        simp only [if_neg Bool.false_ne_true] at h2
        cases hs : (c == '/') with
        | true =>
          rw [hs, Bool.or_true, Bool.toNat_true] at h2
          simp
          omega
        | false =>
          rw [hs, Bool.or_false] at h2
          simp
          omega

/-- `strings.Split` on a single character yields one more field than there
are separator occurrences. -/
theorem splitOnChar_length (sep : Char) :
    ∀ l : List Char, (splitOnChar sep l).length = l.count sep + 1 := by
  intro l
  induction l with
  | nil => simp [splitOnChar]
  | cons c rest ih =>
    rw [splitOnChar]
    cases hsp : splitOnChar sep rest with
    | nil => rw [hsp] at ih; simp at ih
    | cons t ts =>
      rw [hsp] at ih
      simp only [List.length_cons] at ih
      rw [List.count_cons]
      cases hb : (c == sep) with
      | false =>
        simp
        omega
      | true =>
        simp
        omega

/-- Claim C9 (confirmed): for every request URL path accepted by the path
validator, splitting on '/' yields at least three segments; hence the
handler's "unable to parse build name from path" 500 branch is unreachable
and the build-identifier segment `splitPath[1]` always exists (it may be the
empty string, as for "//download"). -/
theorem c9_split_segments (u : ReqURL) (h : validateURLPath u = true) :
    3 ≤ (splitOnChar '/' u.path.data).length ∧
    ∃ s0 s1 rest, splitOnChar '/' u.path.data = s0 :: s1 :: rest ∧
      ∀ env token, afterToken env u token =
        resolveAndDispatch env u token (String.mk s1) := by
  have hc := downloadPathAux_slashes u.path.data false h
  have hl := splitOnChar_length '/' u.path.data
  simp only [Bool.toNat_false] at hc
  have h3 : 3 ≤ (splitOnChar '/' u.path.data).length := by omega
  refine ⟨h3, ?_⟩
  rcases hsp : splitOnChar '/' u.path.data with _ | ⟨s0, _ | ⟨s1, rest⟩⟩
  · rw [hsp] at h3; simp at h3
  · rw [hsp] at h3; simp at h3
  · exact ⟨s0, s1, rest, rfl, fun env token => by simp only [afterToken, hsp]⟩

/-- Witness for C9 at the canonical path "/b1/download". -/
theorem c9_witness :
    3 ≤ (splitOnChar '/' (ReqURL.mk "/b1/download" []).path.data).length ∧
    ∃ s0 s1 rest,
      splitOnChar '/' (ReqURL.mk "/b1/download" []).path.data = s0 :: s1 :: rest ∧
      ∀ env token, afterToken env (ReqURL.mk "/b1/download" []) token =
        resolveAndDispatch env (ReqURL.mk "/b1/download" []) token (String.mk s1) :=
  c9_split_segments _ (by decide)

/-- Claim C2 (corrected): a path rejected by the code's check — which tests
only for a substring of the form '/', a run of non-newline characters, then
"/download" — yields the fixed 400 for every environment, hence before any
upstream call; but the check does not require the segment to be non-empty nor
`download` to be the final segment (see the counterexample). -/
theorem c2_invalid_path_400 (env : Env) (r : ReqURL)
    (h : validateURLPath r = false) :
    handler env r =
      httpError "bad request. route should be called with /<build-id>/download?token=eg-token" 400 := by
  simp [handler, h]

/-- Claim C2 counterexample: "//download" does not have the claimed shape
`/<non-empty-segment>/download`, yet the handler does not reply 400: it
attempts upstream resolution of the empty build id and returns the resolver's
404. -/
theorem c2_counterexample :
    validateURLPath ⟨"//download", [("token", "t")]⟩ = true ∧
    handler sampleEnv ⟨"//download", [("token", "t")]⟩ =
      httpError "no resources found for build " 404 := by decide

/-- Witness for C2 on a concrete rejected path. -/
theorem c2_witness :
    validateURLPath ⟨"/etc/passwd", []⟩ = false ∧
    handler sampleEnv ⟨"/etc/passwd", []⟩ =
      httpError "bad request. route should be called with /<build-id>/download?token=eg-token" 400 :=
  ⟨by decide, c2_invalid_path_400 sampleEnv _ (by decide)⟩

/-- Claim C3 (corrected): with a valid path, the handler replies the fixed
400 — for every environment, hence with no upstream resolution call — exactly
when the number of `token` query parameters differs from one; a single
`token` parameter is accepted by `parseToken` even when its value is empty. -/
theorem c3_token_rule (env : Env) (r : ReqURL)
    (hv : validateURLPath r = true) :
    ((queryValues r.query "token").length ≠ 1 →
      handler env r = httpError "invalid request, missing token" 400) ∧
    (∀ t, queryValues r.query "token" = [t] → parseToken r = .ok t) := by
  constructor
  · intro hn
    have hp : parseToken r = .error "invalid request, missing token" := by
      unfold parseToken
      rcases hql : queryValues r.query "token" with _ | ⟨t, _ | ⟨t2, l⟩⟩
      · rfl
      · exact absurd (by simp [hql]) hn
      · rfl
    simp [handler, hv, hp]
  · intro t ht
    unfold parseToken
    rw [ht]

/-- Claim C3 counterexample: a single empty-valued `token` parameter is not
rejected with 400; the handler proceeds to upstream resolution (observable
here as the resolver's 404). -/
theorem c3_counterexample :
    parseToken ⟨"/nope/download", [("token", "")]⟩ = .ok "" ∧
    handler sampleEnv ⟨"/nope/download", [("token", "")]⟩ =
      httpError "no resources found for build nope" 404 :=
  ⟨rfl, by decide⟩

/-- Witness for C3: zero `token` parameters yield the fixed 400. -/
theorem c3_witness :
    validateURLPath ⟨"/b1/download", []⟩ = true ∧
    handler sampleEnv ⟨"/b1/download", []⟩ =
      httpError "invalid request, missing token" 400 :=
  ⟨by decide, (c3_token_rule sampleEnv _ (by decide)).1 (by decide)⟩

/-- Claim C8 (corrected): on fetch failure the reply is the fixed 500 whose
body is a constant — the source misspells it "error when streaming atifact" —
and in particular does not depend on the artifact URL; after a successful
fetch the stream handle is closed on both the success and the copy-failure
exits, and a copy failure sends no further response, leaving the flushed
response unchanged. -/
theorem c8_binary_exit_paths (sa : String → String → Except String Unit)
    (tok : String) (copy : CopyOutcome) (url ext : String) :
    (∀ e, sa url tok = .error e →
      (handleBinaryResponse sa tok copy url ext).response =
        httpError "error when streaming atifact" 500) ∧
    (∀ url2 e e2, sa url tok = .error e → sa url2 tok = .error e2 →
      (handleBinaryResponse sa tok copy url ext).response.body =
        (handleBinaryResponse sa tok copy url2 ext).response.body) ∧
    (sa url tok = .ok () →
      (handleBinaryResponse sa tok copy url ext).streamClosed = true ∧
      (handleBinaryResponse sa tok copy url ext).errorsAfterFlush = 0) ∧
    (∀ flushed, sa url tok = .ok () → copy = .failure flushed →
      (handleBinaryResponse sa tok copy url ext).response =
        { status := 200
          headers := [("content-type", "octet/stream"),
            ("content-disposition", "attachment; filename=\"" ++ ext ++ "\"")]
          body := flushed }) := by
  refine ⟨?_, ?_, ?_, ?_⟩
  · intro e he; simp [handleBinaryResponse, he]
  · intro url2 e e2 he he2; simp [handleBinaryResponse, he, he2]
  · intro hok
    constructor <;> (cases copy <;> simp [handleBinaryResponse, hok])
  · intro flushed hok hc
    subst hc
    simp [handleBinaryResponse, hok]

/-- Claim C8 counterexample: the fetch-failure body is not the claimed
"error when streaming artifact" — the code emits "atifact". -/
theorem c8_counterexample :
    (handleBinaryResponse (fun _ _ => .error "boom") "svc" (.success "")
        "http://u" "b1.apk").response =
      httpError "error when streaming atifact" 500 ∧
    ("error when streaming atifact" : String) ≠ "error when streaming artifact" := by
  decide

/-- Witness for C8 on a concrete copy failure. -/
theorem c8_witness :
    (handleBinaryResponse (fun _ _ => .ok ()) "svc" (.failure "PART")
        "http://u" "b1.ipa").response =
      { status := 200
        headers := [("content-type", "octet/stream"),
          ("content-disposition", "attachment; filename=\"b1.ipa\"")]
        body := "PART" } :=
  (c8_binary_exit_paths (fun _ _ => .ok ()) "svc" (.failure "PART")
    "http://u" "b1.ipa").2.2.2 "PART" rfl rfl

/-- Claim C1 (corrected): for a request that reaches authorization, the 403
"invalid token provided" reply happens exactly when the token annotation is
absent or differs from the supplied token; equality is plain byte-for-byte
string equality, with no requirement that the token be non-empty — an empty
supplied token matching an empty annotation value is authorized (see the
counterexample). -/
theorem c1_auth_iff (env : Env) (r : ReqURL) (token : String)
    (s0 s1 : List Char) (rest : List (List Char)) (build : Build)
    (hv : validateURLPath r = true)
    (hp : parseToken r = .ok token)
    (hs : splitOnChar '/' r.path.data = s0 :: s1 :: rest)
    (hb : env.getBuild (String.mk s1) = (build, none)) :
    handler env r = httpError ("invalid token provided for build " ++ build.name) 403 ↔
      annotLookup build.annotations env.tokenConst ≠ some token := by
  rw [handler_resolved env r token s0 s1 rest build hv hp hs hb, afterResolve_eq]
  by_cases hl : annotLookup build.annotations env.tokenConst = some token
  · rw [if_pos hl]
    have hne : afterAuth env r token build ≠
        httpError ("invalid token provided for build " ++ build.name) 403 := by
      intro he
      have hst := afterAuth_status env r token build
      rw [he] at hst
      exact hst rfl
    simp [hne, hl]
  · rw [if_neg hl]
    simp [hl]

/-- Claim C1 counterexample: with the token annotation present but empty and
an empty supplied token, the handler authorizes and dispatches (status 200),
whereas the claim requires a non-empty token for authorization. -/
theorem c1_counterexample :
    annotLookup emptyTokenBuild.annotations emptyTokenEnv.tokenConst = some "" ∧
    parseToken ⟨"/b1/download", [("token", "")]⟩ = .ok "" ∧
    (handler emptyTokenEnv ⟨"/b1/download", [("token", "")]⟩).status = 200 :=
  ⟨rfl, rfl, by decide⟩

/-- Witness for C1: a mismatched token yields exactly the 403 naming the
build. -/
theorem c1_witness :
    handler sampleEnv ⟨"/b1/download", [("token", "wrong")]⟩ =
      httpError "invalid token provided for build b1" 403 :=
  (c1_auth_iff sampleEnv ⟨"/b1/download", [("token", "wrong")]⟩ "wrong"
    [] "b1".data ["download".data] sampleBuild
    (by decide) rfl (by decide) (by decide)).mpr (by decide)

/-- Claim C5 (confirmed): when resolution fails with an error containing
"not found" the reply is a 404 naming the requested id (the path segment);
any other resolution failure is a 500; and when resolution succeeds for an
authorized request whose artifact-location annotation is absent or empty, the
reply is the 500 "missing annotation on build object". -/
theorem c5_resolution_errors (env : Env) (r : ReqURL) (token : String)
    (s0 s1 : List Char) (rest : List (List Char))
    (hv : validateURLPath r = true)
    (hp : parseToken r = .ok token)
    (hs : splitOnChar '/' r.path.data = s0 :: s1 :: rest) :
    (∀ b e, env.getBuild (String.mk s1) = (b, some e) →
      strContains e "not found" = true →
      handler env r = httpError ("no resources found for build " ++ String.mk s1) 404) ∧
    (∀ b e, env.getBuild (String.mk s1) = (b, some e) →
      strContains e "not found" = false →
      handler env r = httpError ("error fetching build " ++ b.name) 500) ∧
    (∀ build, env.getBuild (String.mk s1) = (build, none) →
      annotLookup build.annotations env.tokenConst = some token →
      (annotLookup build.annotations env.downloadConst = none ∨
        annotLookup build.annotations env.downloadConst = some "") →
      handler env r = httpError "missing annotation on build object" 500) := by
  refine ⟨?_, ?_, ?_⟩
  · intro b e hb he
    simp [handler, hv, hp, afterToken, hs, resolveAndDispatch, hb, he]
  · intro b e hb he
    simp [handler, hv, hp, afterToken, hs, resolveAndDispatch, hb, he]
  · intro build hb ht hd
    rw [handler_resolved env r token s0 s1 rest build hv hp hs hb,
      afterResolve_eq, if_pos ht, afterAuth_eq]
    rcases hd with hd | hd <;> simp [hd]

/-- Witness for C5 at an unknown build id. -/
theorem c5_witness :
    handler sampleEnv ⟨"/missing/download", [("token", "t")]⟩ =
      httpError "no resources found for build missing" 404 :=
  (c5_resolution_errors sampleEnv ⟨"/missing/download", [("token", "t")]⟩ "t"
    [] "missing".data ["download".data]
    (by decide) rfl (by decide)).1 ⟨"", []⟩ "builds \"missing\" not found"
    (by decide) (by decide)

/-- The full dispatch case analysis for an authorized request with a
non-empty artifact-location annotation (shared helper). -/
theorem handler_dispatch_cases (env : Env) (r : ReqURL) (token : String)
    (s0 s1 : List Char) (rest : List (List Char)) (build : Build) (aurl : String)
    (hv : validateURLPath r = true)
    (hp : parseToken r = .ok token)
    (hs : splitOnChar '/' r.path.data = s0 :: s1 :: rest)
    (hb : env.getBuild (String.mk s1) = (build, none))
    (ht : annotLookup build.annotations env.tokenConst = some token)
    (hd : annotLookup build.annotations env.downloadConst = some aurl)
    (hne : aurl ≠ "") :
    (env.getBuildType build = .ok "android" →
      handler env r = (handleBinaryResponse env.streamArtifact env.authToken
        env.copy aurl (build.name ++ ".apk")).response) ∧
    (env.getBuildType build = .ok "ios" → isArtifactRequest r = true →
      handler env r = (handleBinaryResponse env.streamArtifact env.authToken
        env.copy aurl (build.name ++ ".ipa")).response) ∧
    (env.getBuildType build = .ok "ios" → isArtifactRequest r = false →
      isPlistRequest r = true →
      handler env r =
        { status := 200, headers := [("content-type", "application/xml")]
          body := env.produceXML (env.generateArtifactUrl build.name token true)
            build.name }) ∧
    (env.getBuildType build = .ok "ios" → isArtifactRequest r = false →
      isPlistRequest r = false →
      handler env r =
        { status := 200, headers := [("content-type", "text/html")]
          body := env.produceHTML (encodeItmsUrl r env.hostname) }) ∧
    (∀ bt, env.getBuildType build = .ok bt → bt ≠ "android" → bt ≠ "ios" →
      handler env r =
        httpError ("invalid build type found for build " ++ env.formatBuild build) 400) ∧
    (∀ e, env.getBuildType build = .error e →
      handler env r =
        httpError ("no build type found for build " ++ env.formatBuild build) 400) ∧
    (∀ ext bytes, env.streamArtifact aurl env.authToken = .ok () →
      env.copy = .success bytes →
      (handleBinaryResponse env.streamArtifact env.authToken env.copy aurl
          ext).response =
        { status := 200
          headers := [("content-type", "octet/stream"),
            ("content-disposition", "attachment; filename=\"" ++ ext ++ "\"")]
          body := bytes }) := by
  have hred : handler env r =
      match env.getBuildType build with
      | .error _ =>
        httpError ("no build type found for build " ++ env.formatBuild build) 400
      | .ok buildType => dispatch env r token build aurl buildType := by
    rw [handler_resolved env r token s0 s1 rest build hv hp hs hb,
      afterResolve_eq, if_pos ht, afterAuth_eq, hd]
    simp [hne]
  refine ⟨?_, ?_, ?_, ?_, ?_, ?_, ?_⟩
  · intro hbt; rw [hred, hbt]; simp [dispatch]
  · intro hbt ha; rw [hred, hbt]; simp [dispatch, ha]
  · intro hbt ha hpl; rw [hred, hbt]; simp [dispatch, ha, hpl]
  · intro hbt ha hpl; rw [hred, hbt]; simp [dispatch, ha, hpl]
  · intro bt hbt h1 h2; rw [hred, hbt]; simp [dispatch, h1, h2]
  · intro e hbt; rw [hred, hbt]
  · intro ext bytes hok hcopy; simp [handleBinaryResponse, hok, hcopy]

/-- Claim C4 (confirmed): for an authorized request with a non-empty
artifact-location annotation, dispatch is by platform type — android streams
the binary as `<buildName>.apk` whatever the query flags; ios streams
`<buildName>.ipa` when the artifact flag is set, renders the manifest as
`application/xml` when only the plist flag is set, and otherwise renders the
`text/html` landing page; an unrecognized type (or a classification error)
yields a 400 naming the build; and the binary path sets `octet/stream` plus
the attachment content-disposition carrying the computed filename. -/
theorem c4_dispatch_table (env : Env) (r : ReqURL) (token : String)
    (s0 s1 : List Char) (rest : List (List Char)) (build : Build) (aurl : String)
    (hv : validateURLPath r = true)
    (hp : parseToken r = .ok token)
    (hs : splitOnChar '/' r.path.data = s0 :: s1 :: rest)
    (hb : env.getBuild (String.mk s1) = (build, none))
    (ht : annotLookup build.annotations env.tokenConst = some token)
    (hd : annotLookup build.annotations env.downloadConst = some aurl)
    (hne : aurl ≠ "") :
    (env.getBuildType build = .ok "android" →
      handler env r = (handleBinaryResponse env.streamArtifact env.authToken
        env.copy aurl (build.name ++ ".apk")).response) ∧
    (env.getBuildType build = .ok "ios" → isArtifactRequest r = true →
      handler env r = (handleBinaryResponse env.streamArtifact env.authToken
        env.copy aurl (build.name ++ ".ipa")).response) ∧
    (env.getBuildType build = .ok "ios" → isArtifactRequest r = false →
      isPlistRequest r = true →
      handler env r =
        { status := 200, headers := [("content-type", "application/xml")]
          body := env.produceXML (env.generateArtifactUrl build.name token true)
            build.name }) ∧
    (env.getBuildType build = .ok "ios" → isArtifactRequest r = false →
      isPlistRequest r = false →
      handler env r =
        { status := 200, headers := [("content-type", "text/html")]
          body := env.produceHTML (encodeItmsUrl r env.hostname) }) ∧
    (∀ bt, env.getBuildType build = .ok bt → bt ≠ "android" → bt ≠ "ios" →
      handler env r =
        httpError ("invalid build type found for build " ++ env.formatBuild build) 400) ∧
    (∀ e, env.getBuildType build = .error e →
      handler env r =
        httpError ("no build type found for build " ++ env.formatBuild build) 400) ∧
    (∀ ext bytes, env.streamArtifact aurl env.authToken = .ok () →
      env.copy = .success bytes →
      (handleBinaryResponse env.streamArtifact env.authToken env.copy aurl
          ext).response =
        { status := 200
          headers := [("content-type", "octet/stream"),
            ("content-disposition", "attachment; filename=\"" ++ ext ++ "\"")]
          body := bytes }) :=
  handler_dispatch_cases env r token s0 s1 rest build aurl hv hp hs hb ht hd hne

/-- Witness for C4: the android scenario streams `b1.apk` with the binary
headers. -/
theorem c4_witness :
    handler sampleEnv ⟨"/b1/download", [("token", "secret")]⟩ =
      (handleBinaryResponse sampleEnv.streamArtifact sampleEnv.authToken
        sampleEnv.copy "http://store/a.bin" ("b1" ++ ".apk")).response :=
  (c4_dispatch_table sampleEnv ⟨"/b1/download", [("token", "secret")]⟩ "secret"
    [] "b1".data ["download".data] sampleBuild "http://store/a.bin"
    (by decide) rfl (by decide) (by decide) (by decide) (by decide)
    (by decide)).1 rfl

/-- Claim C10 (confirmed): for an authorized ios request, the artifact flag
takes precedence — when its first value is literally "true" the binary is
streamed as `<buildName>.ipa` no matter what `plist` says — and only the
case-sensitive literal "true" activates either flag: any other first value
for both flags falls through to the landing page. -/
theorem c10_ios_precedence (env : Env) (r : ReqURL) (token : String)
    (s0 s1 : List Char) (rest : List (List Char)) (build : Build) (aurl : String)
    (hv : validateURLPath r = true)
    (hp : parseToken r = .ok token)
    (hs : splitOnChar '/' r.path.data = s0 :: s1 :: rest)
    (hb : env.getBuild (String.mk s1) = (build, none))
    (ht : annotLookup build.annotations env.tokenConst = some token)
    (hd : annotLookup build.annotations env.downloadConst = some aurl)
    (hne : aurl ≠ "")
    (hios : env.getBuildType build = .ok "ios") :
    (queryGet r.query "artifact" = "true" →
      handler env r = (handleBinaryResponse env.streamArtifact env.authToken
        env.copy aurl (build.name ++ ".ipa")).response) ∧
    (queryGet r.query "artifact" ≠ "true" → queryGet r.query "plist" ≠ "true" →
      handler env r =
        { status := 200, headers := [("content-type", "text/html")]
          body := env.produceHTML (encodeItmsUrl r env.hostname) }) := by
  have hc4 := handler_dispatch_cases env r token s0 s1 rest build aurl
    hv hp hs hb ht hd hne
  constructor
  · intro ha
    exact hc4.2.1 hios (by simp [isArtifactRequest, ha])
  · intro ha hpl
    refine hc4.2.2.2.1 hios ?_ ?_
    · simp [isArtifactRequest]
      exact ha
    · simp [isPlistRequest]
      exact hpl

/-- Witness for C10: both flags "true" stream the binary (precedence over the
manifest). -/
theorem c10_witness :
    handler iosEnv
        ⟨"/b1/download", [("token", "secret"), ("artifact", "true"), ("plist", "true")]⟩ =
      (handleBinaryResponse iosEnv.streamArtifact iosEnv.authToken
        iosEnv.copy "http://store/a.bin" ("b1" ++ ".ipa")).response :=
  (c10_ios_precedence iosEnv
    ⟨"/b1/download", [("token", "secret"), ("artifact", "true"), ("plist", "true")]⟩
    "secret" [] "b1".data ["download".data] sampleBuild "http://store/a.bin"
    (by decide) rfl (by decide) (by decide) (by decide) (by decide)
    (by decide) rfl).1 rfl

/-- `charListLe` is total. -/
theorem charListLe_total : ∀ l1 l2 : List Char,
    charListLe l1 l2 = true ∨ charListLe l2 l1 = true := by
  intro l1
  induction l1 with
  | nil => intro l2; left; rfl
  | cons c cs ih =>
    intro l2
    cases l2 with
    | nil => right; rfl
    | cons d ds =>
      by_cases h : c = d
      · subst h
        rw [charListLe, if_pos rfl, charListLe, if_pos rfl]
        exact ih ds
      · rcases lt_trichotomy c d with hlt | heq | hgt
        · left; rw [charListLe, if_neg h]; simpa using hlt
        · exact absurd heq h
        · right
          rw [charListLe, if_neg (fun he => h he.symm)]
          simpa using hgt

/-- `charListLe` is antisymmetric. -/
theorem charListLe_antisymm : ∀ l1 l2 : List Char,
    charListLe l1 l2 = true → charListLe l2 l1 = true → l1 = l2 := by
  intro l1
  induction l1 with
  | nil =>
    intro l2 _ h2
    cases l2 with
    | nil => rfl
    | cons d ds => exact absurd h2 (by rw [charListLe]; simp)
  | cons c cs ih =>
    intro l2 h1 h2
    cases l2 with
    | nil => exact absurd h1 (by rw [charListLe]; simp)
    | cons d ds =>
      by_cases h : c = d
      · subst h
        rw [charListLe, if_pos rfl] at h1 h2
        rw [ih ds h1 h2]
      · rw [charListLe, if_neg h] at h1
        rw [charListLe, if_neg (fun he => h he.symm)] at h2
        simp at h1 h2
        exact absurd h2 (not_lt_of_lt h1)

/-- `charListLe` is transitive. -/
theorem charListLe_trans : ∀ l1 l2 l3 : List Char,
    charListLe l1 l2 = true → charListLe l2 l3 = true → charListLe l1 l3 = true := by
  intro l1
  induction l1 with
  | nil => intro l2 l3 _ _; rfl
  | cons c cs ih =>
    intro l2 l3 h1 h2
    cases l2 with
    | nil => exact absurd h1 (by rw [charListLe]; simp)
    | cons d ds =>
      cases l3 with
      | nil => exact absurd h2 (by rw [charListLe]; simp)
      | cons e es =>
        by_cases hcd : c = d
        · subst hcd
          rw [charListLe, if_pos rfl] at h1
          by_cases hde : c = e
          · subst hde
            rw [charListLe, if_pos rfl] at h2 ⊢
            exact ih ds es h1 h2
          · rw [charListLe, if_neg hde] at h2 ⊢
            exact h2
        · rw [charListLe, if_neg hcd] at h1
          simp at h1
          by_cases hde : d = e
          · subst hde
            rw [charListLe, if_neg hcd]
            simpa using h1
          · rw [charListLe, if_neg hde] at h2
            simp at h2
            have hce : c < e := lt_trans h1 h2
            rw [charListLe, if_neg (ne_of_lt hce)]
            simpa using hce

instance : IsTotal String keyLE :=
  ⟨fun a b => charListLe_total a.data b.data⟩

instance : IsTrans String keyLE :=
  ⟨fun a b c h1 h2 => charListLe_trans a.data b.data c.data h1 h2⟩

instance : IsAntisymm String keyLE :=
  ⟨fun a b h1 h2 => by
    have h := charListLe_antisymm a.data b.data h1 h2
    cases a; cases b
    exact congrArg String.mk h⟩

/-- Looking a key up after `Add`: the added value is appended to that key's
slice and every other key is untouched. -/
theorem lookupVs_valuesAdd (vs : GoValues) (k v k2 : String) :
    lookupVs (valuesAdd vs k v) k2 =
      if k2 = k then some ((lookupVs vs k).getD [] ++ [v])
      else lookupVs vs k2 := by
  induction vs with
  | nil =>
    by_cases h : k2 = k
    · subst h; simp [valuesAdd, lookupVs]
    · simp [valuesAdd, lookupVs, h, Ne.symm h]
  | cons p rest ih =>
    obtain ⟨k3, l⟩ := p
    by_cases h3 : k3 = k
    · subst h3
      simp only [valuesAdd, if_pos rfl, lookupVs]
      by_cases h2 : k2 = k3
      · subst h2; simp [lookupVs]
      · simp [lookupVs, h2, Ne.symm h2]
    · simp only [valuesAdd, if_neg h3, lookupVs]
      by_cases h4 : k3 = k2
      · subst h4
        simp [h3]
      · simp only [if_neg h4]
        rw [ih]

/-- Key membership after `Add`. -/
theorem mem_keys_valuesAdd (vs : GoValues) (k v k2 : String) :
    k2 ∈ (valuesAdd vs k v).map Prod.fst ↔
      k2 ∈ vs.map Prod.fst ∨ k2 = k := by
  induction vs with
  | nil => simp [valuesAdd]
  | cons p rest ih =>
    obtain ⟨k3, l⟩ := p
    by_cases h3 : k3 = k
    · subst h3
      simp [valuesAdd]
      tauto
    · simp [valuesAdd, h3, ih]
      tauto

/-- `Add` preserves distinctness of the keys. -/
theorem nodup_keys_valuesAdd (vs : GoValues) (k v : String)
    (h : (vs.map Prod.fst).Nodup) :
    ((valuesAdd vs k v).map Prod.fst).Nodup := by
  induction vs with
  | nil => simp [valuesAdd]
  | cons p rest ih =>
    obtain ⟨k3, l⟩ := p
    simp only [List.map_cons, List.nodup_cons] at h
    by_cases h3 : k3 = k
    · subst h3
      have hadd : valuesAdd ((k3, l) :: rest) k3 v = (k3, l ++ [v]) :: rest := by
        rw [valuesAdd, if_pos rfl]
      rw [hadd, List.map_cons, List.nodup_cons]
      exact ⟨h.1, h.2⟩
    · simp only [valuesAdd, if_neg h3, List.map_cons, List.nodup_cons]
      refine ⟨?_, ih h.2⟩
      intro hmem
      rw [mem_keys_valuesAdd] at hmem
      rcases hmem with hm | he
      · exact h.1 hm
      · exact h3 he

/-- `queryValues` over a cons. -/
theorem queryValues_cons (k1 v1 : String) (rest : List (String × String)) (k : String) :
    queryValues ((k1, v1) :: rest) k =
      if k1 = k then v1 :: queryValues rest k else queryValues rest k := by
  by_cases h : k1 = k <;> simp [queryValues, h]

/-- Looking up the grouped query built by a fold of `Add`s. -/
theorem lookupVs_foldl (q : List (String × String)) :
    ∀ (acc : GoValues) (k : String),
      lookupVs (q.foldl (fun a p => valuesAdd a p.1 p.2) acc) k =
        if queryValues q k = [] then lookupVs acc k
        else some ((lookupVs acc k).getD [] ++ queryValues q k) := by
  induction q with
  | nil => intro acc k; simp [queryValues]
  | cons p rest ih =>
    intro acc k
    obtain ⟨k1, v1⟩ := p
    rw [List.foldl_cons]
    have hstep := ih (valuesAdd acc k1 v1) k
    rw [queryValues_cons]
    by_cases h : k1 = k
    · subst h
      rw [if_pos rfl]
      rw [hstep, lookupVs_valuesAdd, if_pos rfl]
      by_cases h2 : queryValues rest k1 = []
      · simp [h2]
      · simp [h2]
    · rw [if_neg h]
      rw [hstep, lookupVs_valuesAdd, if_neg (Ne.symm h)]

/-- `Query()` groups exactly the values of each key, in order. -/
theorem lookupVs_queryToValues (q : List (String × String)) (k : String) :
    lookupVs (queryToValues q) k =
      if queryValues q k = [] then none else some (queryValues q k) := by
  rw [queryToValues, lookupVs_foldl]
  simp [lookupVs]

/-- Key membership of the grouped query (fold form). -/
theorem mem_keys_foldl (q : List (String × String)) :
    ∀ (acc : GoValues) (k : String),
      k ∈ (q.foldl (fun a p => valuesAdd a p.1 p.2) acc).map Prod.fst ↔
        k ∈ acc.map Prod.fst ∨ k ∈ q.map Prod.fst := by
  induction q with
  | nil => simp
  | cons p rest ih =>
    intro acc k
    obtain ⟨k1, v1⟩ := p
    rw [List.foldl_cons, ih, mem_keys_valuesAdd]
    simp
    tauto

/-- Distinct keys of the grouped query (fold form). -/
theorem nodup_keys_foldl (q : List (String × String)) :
    ∀ acc : GoValues, (acc.map Prod.fst).Nodup →
      ((q.foldl (fun a p => valuesAdd a p.1 p.2) acc).map Prod.fst).Nodup := by
  induction q with
  | nil => intro acc h; exact h
  | cons p rest ih =>
    intro acc h
    exact ih _ (nodup_keys_valuesAdd _ _ _ h)

/-- `firstOnly` keeps keys and truncates each slice to its first value. -/
theorem lookupVs_firstOnly (vs : GoValues) (k : String) :
    lookupVs (firstOnly vs) k = (lookupVs vs k).map (·.take 1) := by
  induction vs with
  | nil => simp [firstOnly, lookupVs]
  | cons p rest ih =>
    obtain ⟨k2, l⟩ := p
    by_cases h : k2 = k
    · simp [firstOnly, lookupVs, h]
    · simp only [firstOnly, List.map_cons, lookupVs, if_neg h]
      simpa [firstOnly] using ih

/-- `firstOnly` does not change the key list. -/
theorem keys_firstOnly (vs : GoValues) :
    (firstOnly vs).map Prod.fst = vs.map Prod.fst := by
  simp [firstOnly, List.map_map]

/-- The first query value is the head of the value slice. -/
theorem firstValue_eq_head (q : List (String × String)) (k : String) :
    firstValue q k = (queryValues q k).head? := by
  induction q with
  | nil => simp [firstValue, queryValues]
  | cons p rest ih =>
    obtain ⟨k1, v1⟩ := p
    rw [queryValues_cons]
    by_cases h : k1 = k
    · subst h
      simp [firstValue, List.find?]
    · rw [if_neg h, ← ih]
      simp [firstValue, List.find?, beq_eq_false_iff_ne.mpr h]

/-- The params built by `encodeItmsUrl`, as a map: the first inbound value of
every key, with "true" appended to (or creating) the `plist` entry. -/
theorem lookupVs_itmsParams (q : List (String × String)) (k : String) :
    lookupVs (itmsParams q) k =
      if k = "plist" then some ((firstValue q "plist").toList ++ ["true"])
      else (firstValue q k).map fun v => [v] := by
  rw [itmsParams, lookupVs_valuesAdd]
  by_cases h : k = "plist"
  · rw [if_pos h, if_pos h]
    congr 1
    rw [lookupVs_firstOnly, lookupVs_queryToValues, firstValue_eq_head]
    rcases hqv : queryValues q "plist" with _ | ⟨v, tl⟩
    · simp
    · simp
  · rw [if_neg h, if_neg h]
    rw [lookupVs_firstOnly, lookupVs_queryToValues, firstValue_eq_head]
    rcases hqv : queryValues q k with _ | ⟨v, tl⟩
    · simp
    · simp

/-- The keys of the built params are the inbound keys plus `plist`. -/
theorem mem_keys_itmsParams (q : List (String × String)) (k : String) :
    k ∈ (itmsParams q).map Prod.fst ↔ k = "plist" ∨ k ∈ q.map Prod.fst := by
  rw [itmsParams, mem_keys_valuesAdd, keys_firstOnly, queryToValues,
    mem_keys_foldl]
  simp
  tauto

/-- The built params have pairwise-distinct keys. -/
theorem nodup_keys_itmsParams (q : List (String × String)) :
    ((itmsParams q).map Prod.fst).Nodup := by
  rw [itmsParams]
  apply nodup_keys_valuesAdd
  rw [keys_firstOnly, queryToValues]
  exact nodup_keys_foldl q [] (by simp)

/-- `Encode` depends only on the key set and the per-key value slices. -/
theorem valuesEncode_congr (vs1 vs2 : GoValues)
    (hk : (vs1.map Prod.fst).Perm (vs2.map Prod.fst))
    (hl : ∀ k, lookupVs vs1 k = lookupVs vs2 k) :
    valuesEncode vs1 = valuesEncode vs2 := by
  unfold valuesEncode
  have hsort : List.insertionSort keyLE (vs1.map Prod.fst) =
      List.insertionSort keyLE (vs2.map Prod.fst) := by
    have hp := (List.perm_insertionSort keyLE (vs1.map Prod.fst)).trans
      (hk.trans (List.perm_insertionSort keyLE (vs2.map Prod.fst)).symm)
    exact List.eq_of_perm_of_sorted hp
      (List.sorted_insertionSort keyLE (vs1.map Prod.fst))
      (List.sorted_insertionSort keyLE (vs2.map Prod.fst))
  rw [hsort]
  have hf : (fun k => ((lookupVs vs1 k).getD []).map fun v =>
      queryEscape k ++ "=" ++ queryEscape v) =
      (fun k => ((lookupVs vs2 k).getD []).map fun v =>
        queryEscape k ++ "=" ++ queryEscape v) := by
    funext k
    rw [hl k]
  rw [hf]

/-- The auxiliary fold of `String.intercalate` never shrinks the
accumulator. -/
theorem intercalate_go_length (xs : List String) :
    ∀ acc : String, acc.length ≤ (String.intercalate.go acc "&" xs).length := by
  induction xs with
  | nil => intro acc; rw [String.intercalate.go]
  | cons a as ih =>
    intro acc
    rw [String.intercalate.go]
    calc acc.length ≤ (acc ++ "&" ++ a).length := by
          simp [String.length_append]
          omega
      _ ≤ _ := ih _

/-- The encoded query of the built params is never the empty string (it
always carries a `plist` pair). -/
theorem valuesEncode_itmsParams_ne (q : List (String × String)) :
    valuesEncode (itmsParams q) ≠ "" := by
  have hspell : valuesEncode (itmsParams q) =
      String.intercalate "&"
        ((List.insertionSort keyLE ((itmsParams q).map Prod.fst)).flatMap
          fun k => ((lookupVs (itmsParams q) k).getD []).map fun v =>
            queryEscape k ++ "=" ++ queryEscape v) := rfl
  rw [hspell]
  set parts := (List.insertionSort keyLE ((itmsParams q).map Prod.fst)).flatMap
    fun k => ((lookupVs (itmsParams q) k).getD []).map fun v =>
      queryEscape k ++ "=" ++ queryEscape v with hpdef
  have hplist : "plist" ∈ List.insertionSort keyLE ((itmsParams q).map Prod.fst) := by
    rw [(List.perm_insertionSort keyLE _).mem_iff, mem_keys_itmsParams]
    left; rfl
  have hlook := lookupVs_itmsParams q "plist"
  rw [if_pos rfl] at hlook
  have hmem : (queryEscape "plist" ++ "=" ++ queryEscape "true") ∈ parts := by
    rw [hpdef]
    apply List.mem_flatMap.mpr
    refine ⟨"plist", hplist, ?_⟩
    rw [hlook]
    simp
  intro hcontra
  rcases hx : parts with _ | ⟨x, xs⟩
  · rw [hx] at hmem; exact absurd hmem (List.not_mem_nil _)
  · rw [hx] at hcontra hmem
    have hxmem : x ∈ parts := by rw [hx]; exact List.mem_cons_self x xs
    rw [hpdef] at hxmem
    obtain ⟨k2, _, hx2⟩ := List.mem_flatMap.mp hxmem
    obtain ⟨v2, _, hx3⟩ := List.mem_map.mp hx2
    have hxlen : 1 ≤ x.length := by
      rw [← hx3]
      have h1 : ("=" : String).length = 1 := rfl
      simp [String.length_append, h1]
      omega
    have hlen : 1 ≤ (String.intercalate "&" (x :: xs)).length := by
      rw [String.intercalate]
      exact le_trans hxlen (intercalate_go_length xs x)
    rw [hcontra] at hlen
    simp at hlen

/-- Claim C6 (confirmed): the manifest-URL builder maps the spec's example to
exactly the expected output; in general the output is the https scheme, the
configured hostname, the unchanged (escaped) inbound path, and the canonical
encoding of the first value of every inbound query key with `plist=true`
forced into the `plist` entry. -/
theorem c6_manifest_url :
    encodeItmsUrl (ReqURL.mk "/b1/download" [("token", "abc")]) "gateway.example.com" =
      "https://gateway.example.com/b1/download?plist=true&token=abc" ∧
    (∀ u hostname, encodeItmsUrl u hostname =
      "https://" ++ hostname ++ pathEscape u.path ++ "?" ++
        valuesEncode (itmsParams u.query)) ∧
    (∀ q k, lookupVs (itmsParams q) k =
      if k = "plist" then some ((firstValue q "plist").toList ++ ["true"])
      else (firstValue q k).map fun v => [v]) := by
  refine ⟨by decide, ?_, fun q k => lookupVs_itmsParams q k⟩
  intro u hostname
  unfold encodeItmsUrl goUrlString parseHttpsHost
  dsimp only
  rw [show (valuesEncode (itmsParams u.query) == "") = false from
    beq_eq_false_iff_ne.mpr (valuesEncode_itmsParams_ne u.query)]
  rw [if_neg Bool.false_ne_true]
  rw [show ("https" ++ "://" : String) = "https://" from rfl]
  exact (String.append_assoc _ "?" _).symm

/-- Claim C7 (corrected): the builder's output is unchanged under any
reordering of the inbound query parameters that preserves the first value of
every key — in particular under any reordering of parameters with pairwise
distinct keys; a reordering of a repeated key can change which value is
first, and then the output differs (see the counterexample). -/
theorem c7_order_independence (u1 u2 : ReqURL) (hostname : String)
    (hpath : u1.path = u2.path)
    (hperm : u1.query.Perm u2.query)
    (hfirst : ∀ k, firstValue u1.query k = firstValue u2.query k) :
    encodeItmsUrl u1 hostname = encodeItmsUrl u2 hostname := by
  have henc : valuesEncode (itmsParams u1.query) =
      valuesEncode (itmsParams u2.query) := by
    apply valuesEncode_congr
    · apply (List.perm_ext_iff_of_nodup (nodup_keys_itmsParams _)
        (nodup_keys_itmsParams _)).mpr
      intro k
      rw [mem_keys_itmsParams, mem_keys_itmsParams]
      have hmem := (hperm.map Prod.fst).mem_iff (a := k)
      tauto
    · intro k
      rw [lookupVs_itmsParams, lookupVs_itmsParams, hfirst k, hfirst "plist"]
  unfold encodeItmsUrl
  rw [hpath, henc]

/-- Claim C7 counterexample: two inbound URLs that differ only in the order
of their (repeated-key) query parameters produce different outputs, because
`encodeItmsUrl` keeps only the first value of each key. -/
theorem c7_counterexample :
    (([("a", "1"), ("a", "2")] : List (String × String)).Perm
      [("a", "2"), ("a", "1")]) ∧
    encodeItmsUrl (ReqURL.mk "/p" [("a", "1"), ("a", "2")]) "h" ≠
      encodeItmsUrl (ReqURL.mk "/p" [("a", "2"), ("a", "1")]) "h" :=
  ⟨List.Perm.swap _ _ _, by decide⟩

/-- Witness for C7: swapping two distinct-key parameters leaves the output
unchanged. -/
theorem c7_witness :
    encodeItmsUrl (ReqURL.mk "/b1/download" [("token", "abc"), ("artifact", "true")]) "gw" =
      encodeItmsUrl (ReqURL.mk "/b1/download" [("artifact", "true"), ("token", "abc")]) "gw" :=
  c7_order_independence _ _ "gw" rfl (List.Perm.swap _ _ _) (by
    intro k
    by_cases h1 : k = "token"
    · subst h1; rfl
    · by_cases h2 : k = "artifact"
      · subst h2; rfl
      · simp [firstValue, List.find?, beq_eq_false_iff_ne.mpr (Ne.symm h1),
          beq_eq_false_iff_ne.mpr (Ne.symm h2)])

end ArtifactProxy
